import Mathlib

/-!
Verification of the flashcard note store (`database.py`) against its
natural-language specification.

The embedding models the SQLite-backed `Database` class faithfully:
Python values that can appear as taglets (strings, and the tuples that
`cursor.fetchall` rows turn into) are `PyVal`; the three tables are a
`Schema`; a `World` carries the committed schema, the per-connection
pending views, the single-writer lock of the rollback-journal engine,
and an event trace used to state the transaction-discipline claims.
`DbM` is the state-plus-exception monad in which every method of the
class is rendered statement by statement, including the
`DatabaseContextManager` commit/rollback scoping.
-/

/-- A Python value that can occur in a taglet position: a string, or a
tuple of strings (as produced by `cursor.fetchall` rows). -/
inductive PyVal where
  | str (s : String)
  | tup (elems : List String)
  deriving DecidableEq, Repr

/-- Python `set(...)` construction: deduplicate, keeping first occurrences. -/
def mkSet (l : List PyVal) : List PyVal :=
  l.foldl (fun acc x => if acc.contains x then acc else acc ++ [x]) []

/-- The `Tag` class: holds a set of taglets (`self.taglets = set(taglets)`). -/
structure Tag where
  taglets : List PyVal
  deriving DecidableEq, Repr

/-- The `Tag(*taglets)` constructor. -/
def Tag.ofTaglets (l : List PyVal) : Tag := ⟨mkSet l⟩

/-- Method `Tag.__eq__`: set equality of the taglet sets. -/
def tagEqb (a b : Tag) : Bool :=
  a.taglets.all (fun x => b.taglets.contains x) &&
  b.taglets.all (fun x => a.taglets.contains x)

/-- Method `Tag.__sub__`: builds a fresh `Tag` holding the set difference. -/
def Tag.pySub (a b : Tag) : Tag :=
  ⟨a.taglets.filter (fun x => !(b.taglets.contains x))⟩

/-- Python `set.update`: add each element of `r` not already present. -/
def setUpdate (l r : List PyVal) : List PyVal :=
  r.foldl (fun acc x => if acc.contains x then acc else acc ++ [x]) l

/-- Method `Tag.__add__` as written in the source: `new_tag = self` aliases the
left operand, then `new_tag.taglets.update(other.taglets)` mutates it.
The triple returned is (state of `self` after the call, state of `other`
after the call, the returned `Tag`). -/
def Tag.pyAdd (self other : Tag) : Tag × Tag × Tag :=
  let updated : Tag := ⟨setUpdate self.taglets other.taglets⟩
  (updated, other, updated)

/-- The `Note` class: front text, back text, a `Tag`, and a note id that
is `0` until the note is persisted. -/
structure Note where
  front_side : String
  back_side : String
  tag : Tag
  note_id : Nat
  deriving DecidableEq, Repr

/-- The `Note(front_side, back_side, *taglets)` constructor. -/
def Note.mkNew (front back : String) (taglets : List PyVal) : Note :=
  ⟨front, back, Tag.ofTaglets taglets, 0⟩

/-- Method `Note.__eq__`: tags compared as sets, then front and back fields. -/
def noteEqb (a b : Note) : Bool :=
  tagEqb a.tag b.tag && a.front_side == b.front_side && a.back_side == b.back_side

/-- A row of the `notes` table. -/
structure NoteRow where
  id : Nat
  front : String
  back : String
  deriving DecidableEq, Repr

/-- A row of the `taglets` table. -/
structure TagletRow where
  id : Nat
  name : String
  deriving DecidableEq, Repr

/-- A row of the `note_tags` association table. -/
structure NoteTagRow where
  id : Nat
  noteId : Nat
  tagletId : Nat
  deriving DecidableEq, Repr

/-- The three tables of the database file, with their autoincrement
sequence counters. -/
structure Schema where
  notes : List NoteRow
  nextNoteId : Nat
  taglets : List TagletRow
  nextTagletId : Nat
  noteTags : List NoteTagRow
  nextNoteTagId : Nat
  deriving DecidableEq, Repr

def emptySchema : Schema := ⟨[], 1, [], 1, [], 1⟩

/-- The Python exceptions that the modelled code can raise. -/
inductive PyErr where
  | integrityError (msg : String)
  | operationalError (msg : String)
  | programmingError (msg : String)
  | interfaceError (msg : String)
  | valueError (msg : String)
  | typeError (msg : String)
  | attributeError (msg : String)
  deriving DecidableEq, Repr

/-- The error SQLite raises for a duplicate `front_side`; the spec calls
this outcome `DuplicateFrontError`. -/
def DuplicateFrontError : PyErr :=
  PyErr.integrityError "UNIQUE constraint failed: notes.front_side"

/-- Events recorded while a store operation runs, used to state the
transaction-discipline claims. -/
inductive Ev where
  | openC (cid : Nat)
  | write (cid : Nat)
  | commit (cid : Nat)
  | rollback (cid : Nat)
  | closeC (cid : Nat)
  deriving DecidableEq, Repr

/-- The state of one `sqlite3` connection: its view of the data (its
snapshot plus its own uncommitted writes) and whether it is open. -/
structure ConnSt where
  pending : Schema
  isOpen : Bool

/-- The whole runtime state: committed schema, all connections, the
single-writer lock of the rollback-journal engine, a counter for fresh
connection ids, and the event trace. -/
structure World where
  committed : Schema
  conns : Nat → ConnSt
  lockOwner : Option Nat
  nextConn : Nat
  trace : List Ev

def closedConn : ConnSt := ⟨emptySchema, false⟩

/-- A quiescent world over a committed schema: no open connections. -/
def mkWorld (s : Schema) : World := ⟨s, fun _ => closedConn, none, 0, []⟩

/-- Pointwise update of the connection table. -/
def updConn (f : Nat → ConnSt) (i : Nat) (c : ConnSt) : Nat → ConnSt :=
  fun j => if j = i then c else f j

/-- Call `sqlite3.connect`: a fresh connection whose view is the committed state. -/
def openConnW (w : World) : Nat × World :=
  let cid := w.nextConn
  (cid, { w with conns := updConn w.conns cid ⟨w.committed, true⟩,
                 nextConn := w.nextConn + 1,
                 trace := w.trace ++ [Ev.openC cid] })

/-- Call `connection.commit()`: publishes the pending view if this connection
holds the write lock, otherwise a no-op (no open write transaction). -/
def commitConnW (cid : Nat) (w : World) : World :=
  if w.lockOwner = some cid then
    { w with committed := (w.conns cid).pending, lockOwner := none,
             trace := w.trace ++ [Ev.commit cid] }
  else
    { w with trace := w.trace ++ [Ev.commit cid] }

/-- Call `connection.rollback()`: discards the pending view and releases the
write lock if held. -/
def rollbackConnW (cid : Nat) (w : World) : World :=
  { w with conns := updConn w.conns cid ⟨w.committed, (w.conns cid).isOpen⟩,
           lockOwner := if w.lockOwner = some cid then none else w.lockOwner,
           trace := w.trace ++ [Ev.rollback cid] }

/-- Call `connection.close()`. -/
def closeConnW (cid : Nat) (w : World) : World :=
  { w with conns := updConn w.conns cid ⟨(w.conns cid).pending, false⟩,
           trace := w.trace ++ [Ev.closeC cid] }

/-- The state-plus-exception monad the methods run in. -/
def DbM (α : Type) : Type := World → Except PyErr α × World

def DbM.pure' {α : Type} (a : α) : DbM α := fun w => (Except.ok a, w)

def DbM.bind' {α β : Type} (m : DbM α) (f : α → DbM β) : DbM β := fun w =>
  match m w with
  | (Except.ok a, w') => f a w'
  | (Except.error e, w') => (Except.error e, w')

instance : Monad DbM := { pure := DbM.pure', bind := DbM.bind' }

def DbM.throwErr {α : Type} (e : PyErr) : DbM α := fun w => (Except.error e, w)

/-- The `except sqlite3.IntegrityError: pass` handler around the taglet
insert in `insert_note`. -/
def DbM.catchIntegrity (m : DbM Unit) : DbM Unit := fun w =>
  match m w with
  | (Except.ok a, w') => (Except.ok a, w')
  | (Except.error (PyErr.integrityError _), w') => (Except.ok (), w')
  | (Except.error e, w') => (Except.error e, w')

/-- Call `connection.cursor()`: raises `ProgrammingError` on a closed connection. -/
def openCursor (cid : Nat) : DbM Unit := fun w =>
  if (w.conns cid).isOpen then (Except.ok (), w)
  else (Except.error (PyErr.programmingError "Cannot operate on a closed database"), w)

/-- A DML statement must take the single write lock; another connection
holding it (an open write transaction elsewhere) raises
`OperationalError: database is locked`. -/
def acquireWrite (cid : Nat) (w : World) : Except PyErr World :=
  match w.lockOwner with
  | none => Except.ok { w with lockOwner := some cid }
  | some c =>
      if c = cid then Except.ok w
      else Except.error (PyErr.operationalError "database is locked")

def readPending (cid : Nat) (w : World) : Schema := (w.conns cid).pending

def setPending (cid : Nat) (s : Schema) (w : World) : World :=
  { w with conns := updConn w.conns cid ⟨s, (w.conns cid).isOpen⟩,
           trace := w.trace ++ [Ev.write cid] }

def fronts (s : Schema) : List String := s.notes.map (fun r => r.front)

def tagletNames (s : Schema) : List String := s.taglets.map (fun r => r.name)

/-- Binding a Python value as an SQL parameter: only strings are
supported; a tuple raises `InterfaceError`. -/
def bindTagletParam : PyVal → Except PyErr String
  | PyVal.str s => Except.ok s
  | PyVal.tup _ => Except.error (PyErr.interfaceError "Error binding parameter 0")

/-- Statement `INSERT INTO notes (front_side, back_side) VALUES (?, ?)`; yields
`cursor.lastrowid`. -/
def execInsertNotes (cid : Nat) (front back : String) : DbM Nat := fun w =>
  match acquireWrite cid w with
  | Except.error e => (Except.error e, w)
  | Except.ok w1 =>
      let s := readPending cid w1
      if (fronts s).contains front then (Except.error DuplicateFrontError, w1)
      else
        let nid := s.nextNoteId
        (Except.ok nid,
         setPending cid
           { s with notes := s.notes ++ [⟨nid, front, back⟩], nextNoteId := nid + 1 } w1)

/-- Statement `INSERT INTO taglets (taglet_name) VALUES (?)`. -/
def execInsertTaglet (cid : Nat) (v : PyVal) : DbM Unit := fun w =>
  match bindTagletParam v with
  | Except.error e => (Except.error e, w)
  | Except.ok name =>
      match acquireWrite cid w with
      | Except.error e => (Except.error e, w)
      | Except.ok w1 =>
          let s := readPending cid w1
          if (tagletNames s).contains name then
            (Except.error (PyErr.integrityError "UNIQUE constraint failed: taglets.taglet_name"), w1)
          else
            (Except.ok (),
             setPending cid
               { s with taglets := s.taglets ++ [⟨s.nextTagletId, name⟩],
                        nextTagletId := s.nextTagletId + 1 } w1)

/-- Statement `INSERT OR IGNORE INTO taglets (taglet_name) VALUES (?)`. -/
def execInsertTagletOrIgnore (cid : Nat) (v : PyVal) : DbM Unit := fun w =>
  match bindTagletParam v with
  | Except.error e => (Except.error e, w)
  | Except.ok name =>
      match acquireWrite cid w with
      | Except.error e => (Except.error e, w)
      | Except.ok w1 =>
          let s := readPending cid w1
          if (tagletNames s).contains name then (Except.ok (), w1)
          else
            (Except.ok (),
             setPending cid
               { s with taglets := s.taglets ++ [⟨s.nextTagletId, name⟩],
                        nextTagletId := s.nextTagletId + 1 } w1)

/-- Statement `SELECT taglet_id FROM taglets WHERE taglet_name = ?` with `fetchone`. -/
def selectTagletIdByName (cid : Nat) (v : PyVal) : DbM (Option Nat) := fun w =>
  match bindTagletParam v with
  | Except.error e => (Except.error e, w)
  | Except.ok name =>
      (Except.ok (((readPending cid w).taglets.find? (fun t => t.name == name)).map
        (fun t => t.id)), w)

/-- Statement `INSERT INTO note_tags (note_id, taglet_id) VALUES (?, ?)`. -/
def execInsertNoteTag (cid : Nat) (noteId tagletId : Nat) : DbM Unit := fun w =>
  match acquireWrite cid w with
  | Except.error e => (Except.error e, w)
  | Except.ok w1 =>
      let s := readPending cid w1
      (Except.ok (),
       setPending cid
         { s with noteTags := s.noteTags ++ [⟨s.nextNoteTagId, noteId, tagletId⟩],
                  nextNoteTagId := s.nextNoteTagId + 1 } w1)

/-- Statement `SELECT note_id, front_side, back_side FROM notes WHERE front_side = ?`
with `fetchone`. -/
def selectNoteByFront (cid : Nat) (front : String) : DbM (Option (Nat × String × String)) :=
  fun w =>
    (Except.ok (((readPending cid w).notes.find? (fun r => r.front == front)).map
      (fun r => (r.id, r.front, r.back))), w)

/-- Statement `SELECT front_side, back_side FROM notes WHERE note_id = ?` with `fetchone`. -/
def selectNoteById (cid : Nat) (noteId : Nat) : DbM (Option (String × String)) := fun w =>
  (Except.ok (((readPending cid w).notes.find? (fun r => r.id == noteId)).map
    (fun r => (r.front, r.back))), w)

/-- The taglet names joined to a note through `note_tags`. -/
def joinTagletNamesByNote (s : Schema) (noteId : Nat) : List String :=
  (s.noteTags.filter (fun nt => nt.noteId == noteId)).filterMap
    (fun nt => (s.taglets.find? (fun t => t.id == nt.tagletId)).map (fun t => t.name))

/-- Statement `SELECT taglets.taglet_name FROM taglets INNER JOIN note_tags ... WHERE note_id = ?`. -/
def selectTagletNamesOfNote (cid : Nat) (noteId : Nat) : DbM (List String) := fun w =>
  (Except.ok (joinTagletNamesByNote (readPending cid w) noteId), w)

/-- The (taglet_id, taglet_name) pairs joined to a note through `note_tags`. -/
def joinTagletPairsByNote (s : Schema) (noteId : Nat) : List (Nat × String) :=
  (s.noteTags.filter (fun nt => nt.noteId == noteId)).filterMap
    (fun nt => (s.taglets.find? (fun t => t.id == nt.tagletId)).map (fun t => (t.id, t.name)))

/-- Statement `SELECT taglets.taglet_id, taglets.taglet_name FROM taglets INNER JOIN
note_tags ... WHERE note_tags.note_id = ?` with `fetchall`. -/
def selectTagletPairsOfNote (cid : Nat) (noteId : Nat) : DbM (List (Nat × String)) := fun w =>
  (Except.ok (joinTagletPairsByNote (readPending cid w) noteId), w)

/-- Statement `UPDATE notes SET front_side = ?, back_side = ? WHERE note_id = ?`. -/
def execUpdateNotes (cid : Nat) (front back : String) (noteId : Nat) : DbM Unit := fun w =>
  match acquireWrite cid w with
  | Except.error e => (Except.error e, w)
  | Except.ok w1 =>
      let s := readPending cid w1
      if s.notes.any (fun r => r.id == noteId) &&
         s.notes.any (fun r => r.id != noteId && r.front == front) then
        (Except.error DuplicateFrontError, w1)
      else
        (Except.ok (),
         setPending cid
           { s with notes := s.notes.map (fun r =>
               if r.id == noteId then { r with front := front, back := back } else r) } w1)

/-- The `DELETE FROM note_tags WHERE note_id = ? AND taglet_id IN (SELECT
... WHERE taglet_name = ?)` statement of `remove_tag_from_note`. -/
def execDeleteNoteTag (cid : Nat) (noteId : Nat) (v : PyVal) : DbM Unit := fun w =>
  match bindTagletParam v with
  | Except.error e => (Except.error e, w)
  | Except.ok name =>
      match acquireWrite cid w with
      | Except.error e => (Except.error e, w)
      | Except.ok w1 =>
          let s := readPending cid w1
          (Except.ok (),
           setPending cid
             { s with noteTags := s.noteTags.filter (fun nt =>
                 !(nt.noteId == noteId &&
                   s.taglets.any (fun t => t.id == nt.tagletId && t.name == name))) } w1)

/-- The taglets referenced by no `note_tags` row. -/
def orphanTaglets (s : Schema) : List TagletRow :=
  s.taglets.filter (fun t => !(s.noteTags.any (fun nt => nt.tagletId == t.id)))

/-- Statement `SELECT * FROM taglets WHERE NOT EXISTS (...)` with `fetchall`. -/
def selectOrphanTaglets (cid : Nat) : DbM (List (Nat × String)) := fun w =>
  (Except.ok ((orphanTaglets (readPending cid w)).map (fun t => (t.id, t.name))), w)

/-- Statement `DELETE FROM taglets WHERE NOT EXISTS (...)`. -/
def execDeleteOrphanTaglets (cid : Nat) : DbM Unit := fun w =>
  match acquireWrite cid w with
  | Except.error e => (Except.error e, w)
  | Except.ok w1 =>
      let s := readPending cid w1
      (Except.ok (),
       setPending cid
         { s with taglets := s.taglets.filter (fun t =>
             s.noteTags.any (fun nt => nt.tagletId == t.id)) } w1)

/-- Line `note_id, front_side, back_side = cursor.fetchone()`: unpacking `None`
raises `TypeError`. -/
def unpackRow3 : Option (Nat × String × String) → DbM (Nat × String × String)
  | none => DbM.throwErr (PyErr.typeError "cannot unpack non-iterable NoneType object")
  | some r => pure r

/-- Line `xs, ys = zip(*result)`: on an empty result this raises `ValueError`. -/
def zipUnpack2 (l : List (Nat × String)) : DbM (List Nat × List String) :=
  match l with
  | [] => DbM.throwErr (PyErr.valueError "not enough values to unpack (expected 2, got 0)")
  | _ => pure (l.map Prod.fst, l.map Prod.snd)

/-- The `DatabaseContextManager`: open a connection, run the body, commit
on success and roll back on any exception, closing the connection on
every exit path (and re-raising the exception). -/
def withDCM {α : Type} (body : Nat → DbM α) : DbM α := fun w =>
  let p := openConnW w
  match body p.1 p.2 with
  | (Except.ok a, w2) => (Except.ok a, closeConnW p.1 (commitConnW p.1 w2))
  | (Except.error e, w2) => (Except.error e, closeConnW p.1 (rollbackConnW p.1 w2))

/-- The taglet loop inside `insert_note`: for each taglet, insert it
(ignoring a uniqueness violation), look up its id, and link it to the
note when the lookup finds a row. -/
def insertTagletsLoop (noteId cid : Nat) : List PyVal → DbM Unit
  | [] => pure ()
  | v :: rest => do
      DbM.catchIntegrity (execInsertTaglet cid v)
      let r ← selectTagletIdByName cid v
      match r with
      | some tid => execInsertNoteTag cid noteId tid
      | none => pure ()
      insertTagletsLoop noteId cid rest

/-- The body of `Database.insert_note` inside its context manager. -/
def insert_note_body (note : Note) (cid : Nat) : DbM Nat := do
  openCursor cid
  let note_id ← execInsertNotes cid note.front_side note.back_side
  insertTagletsLoop note_id cid note.tag.taglets
  pure note_id

/-- Method `Database.insert_note`. -/
def insert_note (note : Note) : DbM Nat :=
  withDCM (insert_note_body note)

/-- The body of `Database.get_note_by_fields` once a connection exists:
note the `set(cursor.fetchall())` on the taglet query, which collects the
raw one-element row tuples rather than the taglet names. -/
def get_note_by_fields_body (front : String) (cid : Nat) : DbM (Option Note) := do
  openCursor cid
  let row ← selectNoteByFront cid front
  let r ← unpackRow3 row
  let names ← selectTagletNamesOfNote cid r.1
  let new_taglets := mkSet (names.map (fun n => PyVal.tup [n]))
  pure (some { front_side := r.2.1, back_side := r.2.2,
               tag := Tag.ofTaglets new_taglets, note_id := r.1 })

/-- Method `Database.get_note_by_fields`. -/
def get_note_by_fields (front : String) (conn? : Option Nat) : DbM (Option Note) :=
  if front = "" then pure none
  else
    match conn? with
    | none => withDCM fun cid => get_note_by_fields_body front cid
    | some cid => get_note_by_fields_body front cid

/-- The body of `Database.get_note_by_id` once a connection exists; here
the row tuples are unwrapped (`[_[0] for _ in taglets]`). -/
def get_note_by_id_body (noteId cid : Nat) : DbM (Option Note) := do
  openCursor cid
  let result ← selectNoteById cid noteId
  match result with
  | none => pure none
  | some fb => do
      let names ← selectTagletNamesOfNote cid noteId
      let taglets := names.map PyVal.str
      if taglets.isEmpty then
        pure (some { front_side := fb.1, back_side := fb.2, tag := ⟨[]⟩, note_id := noteId })
      else
        pure (some { front_side := fb.1, back_side := fb.2,
                     tag := Tag.ofTaglets taglets, note_id := noteId })

/-- Method `Database.get_note_by_id`. -/
def get_note_by_id (noteId : Nat) (conn? : Option Nat) : DbM (Option Note) :=
  if noteId = 0 then pure none
  else
    match conn? with
    | some cid => get_note_by_id_body noteId cid
    | none => withDCM fun cid => get_note_by_id_body noteId cid

/-- The per-taglet loop of `add_tag_to_note`: the membership test
compares the candidate taglet against the joined taglet names. -/
def addTagLoop (noteId cid : Nat) (taglet_names : List String) : List PyVal → DbM Unit
  | [] => pure ()
  | v :: rest => do
      if (taglet_names.map PyVal.str).contains v then pure ()
      else do
        execInsertTagletOrIgnore cid v
        let r ← selectTagletIdByName cid v
        match r with
        | some tid => execInsertNoteTag cid noteId tid
        | none => pure ()
      addTagLoop noteId cid taglet_names rest

/-- The body of `Database.add_tag_to_note` (lines after the connection
check): grab the joined (taglet_id, taglet_name) pairs, unpack them with
`zip(*result)` — which raises `ValueError` when the note has no
associations — then process each taglet of `add_tag`. -/
def add_tag_to_note_body (noteId : Nat) (add_tag : Tag) (cid : Nat) : DbM Unit := do
  openCursor cid
  let pairs ← selectTagletPairsOfNote cid noteId
  let np ← zipUnpack2 pairs
  addTagLoop noteId cid np.2 add_tag.taglets

/-- Method `Database.add_tag_to_note`. When called without a connection it runs
the body inside a context manager, and then — because the `with` block
does not return — falls through and runs the body a second time on the
now-closed connection. -/
def add_tag_to_note (noteId : Nat) (add_tag : Tag) (conn? : Option Nat) : DbM Unit :=
  match conn? with
  | none => do
      let cid ← withDCM fun cid => do
        add_tag_to_note_body noteId add_tag cid
        pure cid
      add_tag_to_note_body noteId add_tag cid
  | some cid => add_tag_to_note_body noteId add_tag cid

/-- The per-taglet loop of `remove_tag_from_note`. -/
def removeTagLoop (noteId cid : Nat) : List PyVal → DbM Unit
  | [] => pure ()
  | v :: rest => do
      execDeleteNoteTag cid noteId v
      removeTagLoop noteId cid rest

/-- The body of `Database.remove_tag_from_note` inside its context
manager: deletes each association only when `del_tag` is non-empty. -/
def remove_tag_from_note_body (noteId : Nat) (del_tag : Tag) (cid : Nat) : DbM Unit := do
  openCursor cid
  if del_tag.taglets.isEmpty then pure ()
  else removeTagLoop noteId cid del_tag.taglets

/-- Method `Database.remove_tag_from_note`: always opens its own scoped
connection. -/
def remove_tag_from_note (noteId : Nat) (del_tag : Tag) : DbM Unit :=
  withDCM (remove_tag_from_note_body noteId del_tag)

/-- Method `Database.delete_unused_taglets`: select the orphans, delete them,
then `taglet_ids, deleted_taglets = zip(*result)` — raising `ValueError`
when there was no orphan — and return `Tag(deleted_taglets)`, a `Tag`
whose single taglet is the tuple of the deleted names. -/
def delete_unused_taglets_body (cid : Nat) : DbM Tag := do
  openCursor cid
  let result ← selectOrphanTaglets cid
  execDeleteOrphanTaglets cid
  let np ← zipUnpack2 result
  pure (Tag.ofTaglets [PyVal.tup np.2])

/-- Scoped-transaction wrapper of `delete_unused_taglets_body`. -/
def delete_unused_taglets : DbM Tag := withDCM delete_unused_taglets_body

/-- The body of `Database.update_note` inside its context manager: fetch
the original on the scoped connection, overwrite the front/back fields,
then apply the label diff through `add_tag_to_note` (called without a
connection) and `remove_tag_from_note`. -/
def update_note_body (original_note_id : Nat) (replacement : Note) (cid : Nat) : DbM Unit := do
  let original ← get_note_by_id original_note_id (some cid)
  openCursor cid
  execUpdateNotes cid replacement.front_side replacement.back_side original_note_id
  let original_tag ← match original with
    | none => DbM.throwErr (PyErr.attributeError "NoneType object has no attribute tag")
    | some o => pure o.tag
  let add_tag := Tag.pySub replacement.tag original_tag
  add_tag_to_note original_note_id add_tag none
  let del_tag := Tag.pySub original_tag replacement.tag
  remove_tag_from_note original_note_id del_tag

/-- Method `Database.update_note`. -/
def update_note (original_note_id : Nat) (replacement : Note) : DbM Unit :=
  withDCM (update_note_body original_note_id replacement)

/-- A database file before schema setup: each table either exists with
its rows or is absent. -/
structure DbFile where
  notesTab : Option (List NoteRow)
  tagletsTab : Option (List TagletRow)
  noteTagsTab : Option (List NoteTagRow)
  deriving DecidableEq, Repr

/-- Statement `CREATE TABLE IF NOT EXISTS notes (...)`. -/
def createNotesTable (f : DbFile) : DbFile :=
  match f.notesTab with
  | some _ => f
  | none => { f with notesTab := some [] }

/-- Statement `CREATE TABLE IF NOT EXISTS taglets (...)`. -/
def createTagletsTable (f : DbFile) : DbFile :=
  match f.tagletsTab with
  | some _ => f
  | none => { f with tagletsTab := some [] }

/-- Statement `CREATE TABLE IF NOT EXISTS note_tags (...)`. -/
def createNoteTagsTable (f : DbFile) : DbFile :=
  match f.noteTagsTab with
  | some _ => f
  | none => { f with noteTagsTab := some [] }

/-- Method `Database.__init__`: the three schema-setup statements in order. -/
def database_setup (f : DbFile) : DbFile :=
  createNoteTagsTable (createTagletsTable (createNotesTable f))

/-- The connection ids on which `write` events occurred. -/
def writeConns (tr : List Ev) : List Nat :=
  tr.filterMap (fun e => match e with | Ev.write c => some c | _ => none)

/-- All writes of a trace happen on a single connection. -/
def singleConnWrites (tr : List Ev) : Bool :=
  match writeConns tr with
  | [] => true
  | c :: rest => rest.all (fun x => x == c)

/-- Walks a trace tracking which connection, if any, has an open write
transaction (a `write` not yet followed by its `commit`/`rollback`); a
new connection opened while one is open violates the one-transaction-
per-operation discipline. -/
def noNewConnWhileTx : List Ev → Option Nat → Bool
  | [], _ => true
  | Ev.openC _ :: _, some _ => false
  | Ev.openC _ :: rest, none => noNewConnWhileTx rest none
  | Ev.write c :: rest, _ => noNewConnWhileTx rest (some c)
  | Ev.commit c :: rest, st => noNewConnWhileTx rest (if st == some c then none else st)
  | Ev.rollback c :: rest, st => noNewConnWhileTx rest (if st == some c then none else st)
  | Ev.closeC _ :: rest, st => noNewConnWhileTx rest st

/-! Concrete stores used by the scenario theorems. -/

/-- A store holding one note `("f", "b")` labelled `{A, B, C}`. -/
def storeABC : Schema :=
  ⟨[⟨1, "f", "b"⟩], 2, [⟨1, "A"⟩, ⟨2, "B"⟩, ⟨3, "C"⟩], 4,
   [⟨1, 1, 1⟩, ⟨2, 1, 2⟩, ⟨3, 1, 3⟩], 4⟩

/-- A replacement note carrying labels `{A, B, D}`. -/
def replABD : Note :=
  ⟨"f2", "b2", Tag.ofTaglets [PyVal.str "A", PyVal.str "B", PyVal.str "D"], 0⟩

/-- A fresh note `("f", "b")` with the single label `t`. -/
def noteFT : Note := ⟨"f", "b", Tag.ofTaglets [PyVal.str "t"], 0⟩

/-- A store where the only taglet `A` is referenced: no orphans. -/
def storeNoOrphan : Schema := ⟨[⟨1, "f", "b"⟩], 2, [⟨1, "A"⟩], 2, [⟨1, 1, 1⟩], 2⟩

/-- A store where taglet `A` is referenced and taglet `C` is an orphan. -/
def storeOrphanC : Schema :=
  ⟨[⟨1, "f", "b"⟩], 2, [⟨1, "A"⟩, ⟨2, "C"⟩], 3, [⟨1, 1, 1⟩], 2⟩

/-- A store holding one note with no label associations. -/
def storeNoAssoc : Schema := ⟨[⟨1, "f", "b"⟩], 2, [], 1, [], 1⟩

/-- C1. The update-diff algorithm is never carried through: on the spec's
own scenario (original labels `{A, B, C}`, replacement labels `{A, B, D}`)
`update_note` raises — the nested `add_tag_to_note` opens a second
connection that cannot write while the first one holds the uncommitted
front/back update — the whole transaction is rolled back, and a
subsequent fetch still returns the original front, back and labels
rather than the replacement's. -/
theorem update_note_diff_never_applied :
    (update_note 1 replABD (mkWorld storeABC)).1 =
        Except.error (PyErr.operationalError "database is locked") ∧
    (update_note 1 replABD (mkWorld storeABC)).2.committed = storeABC ∧
    (get_note_by_id 1 none ((update_note 1 replABD (mkWorld storeABC)).2)).1 =
        Except.ok (some ⟨"f", "b", ⟨[PyVal.str "A", PyVal.str "B", PyVal.str "C"]⟩, 1⟩) ∧
    noteEqb ⟨"f", "b", ⟨[PyVal.str "A", PyVal.str "B", PyVal.str "C"]⟩, 1⟩ replABD = false := by
  refine ⟨rfl, by decide, rfl, by decide⟩

/-- C2. Round-trip after inserting `("f", "b", {t})` into an empty store:
`get_note_by_id` returns a note equal (in front/back/labels) to the
original, but `get_note_by_fields` wraps each label in the raw row tuple
(`set(cursor.fetchall())`), so the note it returns is not equal to the
inserted one. -/
theorem insert_fetch_roundtrip_results :
    (insert_note noteFT (mkWorld emptySchema)).1 = Except.ok 1 ∧
    (get_note_by_id 1 none ((insert_note noteFT (mkWorld emptySchema)).2)).1 =
        Except.ok (some ⟨"f", "b", ⟨[PyVal.str "t"]⟩, 1⟩) ∧
    noteEqb ⟨"f", "b", ⟨[PyVal.str "t"]⟩, 1⟩ noteFT = true ∧
    (get_note_by_fields "f" none ((insert_note noteFT (mkWorld emptySchema)).2)).1 =
        Except.ok (some ⟨"f", "b", ⟨[PyVal.tup ["t"]]⟩, 1⟩) ∧
    noteEqb ⟨"f", "b", ⟨[PyVal.tup ["t"]]⟩, 1⟩ noteFT = false := by
  refine ⟨rfl, rfl, by decide, rfl, by decide⟩

/-- C3 (counterexample). `update_note` opens a second connection (inside
`add_tag_to_note`) while its own transaction still holds the uncommitted
front/back write, so the one-transaction-per-operation discipline the
claim asserts for every public operation is violated. -/
theorem update_note_txn_discipline_violated :
    noNewConnWhileTx ((update_note 1 replABD (mkWorld storeABC)).2.trace) none = false := by
  decide

/-- C5. When the store has no orphan label, `delete_unused_taglets`
raises `ValueError` (from `zip(*result)` on the empty selection) instead
of returning an empty list, and the transaction is rolled back; when an
orphan `C` exists it does delete exactly the orphan and keeps the
referenced label `A`, but the value returned is a `Tag` whose single
element is the tuple `("C",)` of deleted names, not the list of names. -/
theorem delete_unused_taglets_results :
    (delete_unused_taglets (mkWorld storeNoOrphan)).1 =
        Except.error (PyErr.valueError "not enough values to unpack (expected 2, got 0)") ∧
    (delete_unused_taglets (mkWorld storeNoOrphan)).2.committed = storeNoOrphan ∧
    (delete_unused_taglets (mkWorld storeOrphanC)).1 =
        Except.ok ⟨[PyVal.tup ["C"]]⟩ ∧
    (delete_unused_taglets (mkWorld storeOrphanC)).2.committed.taglets = [⟨1, "A"⟩] ∧
    (delete_unused_taglets (mkWorld storeOrphanC)).2.committed.noteTags =
        storeOrphanC.noteTags := by
  refine ⟨rfl, by decide, rfl, rfl, rfl⟩

/-- C6 (counterexample). With a non-empty front value matching no stored
note, `get_note_by_fields` does not return an absent result: unpacking
the `None` returned by `fetchone` raises `TypeError`. -/
theorem get_note_by_fields_unmatched_raises :
    (get_note_by_fields "x" none (mkWorld emptySchema)).1 =
      Except.error (PyErr.typeError "cannot unpack non-iterable NoneType object") := by
  rfl

/-- C7. `Tag.__add__` returns the union of the two label sets, but it
does so by mutating its left operand in place (`new_tag = self` aliases
rather than copies): after `a + b` with `a = {x}` and `b = {y}`, `a`
holds `{x, y}`, contrary to the claim that neither input is mutated. -/
theorem tag_add_mutates_left_operand :
    (Tag.pyAdd ⟨[PyVal.str "x"]⟩ ⟨[PyVal.str "y"]⟩).2.2 =
        ⟨[PyVal.str "x", PyVal.str "y"]⟩ ∧
    (Tag.pyAdd ⟨[PyVal.str "x"]⟩ ⟨[PyVal.str "y"]⟩).1 =
        ⟨[PyVal.str "x", PyVal.str "y"]⟩ ∧
    (Tag.pyAdd ⟨[PyVal.str "x"]⟩ ⟨[PyVal.str "y"]⟩).1 ≠ ⟨[PyVal.str "x"]⟩ ∧
    (Tag.pyAdd ⟨[PyVal.str "x"]⟩ ⟨[PyVal.str "y"]⟩).2.1 = ⟨[PyVal.str "y"]⟩ := by
  refine ⟨rfl, rfl, by decide, rfl⟩

/-- C8 (counterexample). A note with empty front and back fields is not
rejected: `insert_note` persists it and returns id 1, so no
validation-before-write exists. -/
theorem insert_note_accepts_empty_fields :
    (insert_note ⟨"", "", ⟨[]⟩, 0⟩ (mkWorld emptySchema)).1 = Except.ok 1 ∧
    (insert_note ⟨"", "", ⟨[]⟩, 0⟩ (mkWorld emptySchema)).2.committed ≠ emptySchema ∧
    (insert_note ⟨"", "", ⟨[]⟩, 0⟩ (mkWorld emptySchema)).2.committed.notes =
        [⟨1, "", ""⟩] := by
  refine ⟨rfl, by decide, rfl⟩

/-- C8 (amended). `insert_note` performs no emptiness validation of the
front or back field: for any strings, a note with an empty front or an
empty back inserted into an empty store is persisted normally with id 1;
empty strings satisfy the `NOT NULL` column constraints. -/
theorem insert_note_no_validation (front back : String) :
    (insert_note ⟨front, "", ⟨[]⟩, 0⟩ (mkWorld emptySchema)).1 = Except.ok 1 ∧
    (insert_note ⟨front, "", ⟨[]⟩, 0⟩ (mkWorld emptySchema)).2.committed.notes =
        [⟨1, front, ""⟩] ∧
    (insert_note ⟨"", back, ⟨[]⟩, 0⟩ (mkWorld emptySchema)).1 = Except.ok 1 ∧
    (insert_note ⟨"", back, ⟨[]⟩, 0⟩ (mkWorld emptySchema)).2.committed.notes =
        [⟨1, "", back⟩] := by
  refine ⟨rfl, rfl, rfl, rfl⟩

/-- C10. Constructing a `Database` over an already-initialized file is
idempotent: all three `CREATE TABLE IF NOT EXISTS` statements leave an
existing table — and hence every stored note, taglet and association
row — unchanged. -/
theorem database_setup_idempotent (f : DbFile)
    (a : List NoteRow) (b : List TagletRow) (c : List NoteTagRow)
    (ha : f.notesTab = some a) (hb : f.tagletsTab = some b)
    (hc : f.noteTagsTab = some c) :
    database_setup f = f := by
  simp [database_setup, createNotesTable, createTagletsTable, createNoteTagsTable,
        ha, hb, hc]

/-- Witness for `database_setup_idempotent` at a populated file. -/
theorem database_setup_idempotent_witness :
    database_setup ⟨some [⟨1, "f", "b"⟩], some [⟨1, "A"⟩], some [⟨1, 1, 1⟩]⟩ =
      ⟨some [⟨1, "f", "b"⟩], some [⟨1, "A"⟩], some [⟨1, 1, 1⟩]⟩ :=
  database_setup_idempotent _ _ _ _ rfl rfl rfl


/-- The effect a statement-level step has on the world when viewed from
connection `cid`: the trace grows only by `write cid` events and the
committed state is untouched. -/
def tracePlusWrites (cid : Nat) (w w' : World) : Prop :=
  ∃ l, w'.trace = w.trace ++ l ∧ (∀ e ∈ l, e = Ev.write cid) ∧ w'.committed = w.committed

/-- Discipline of one public operation run from a fresh `Database` handle on
committed store `s`: all writes happen on the single scoped connection, no
second connection is opened while a write transaction is open, the scope
ends in `commit` then `close` when the call succeeds, and in `rollback`
then `close` with the committed store unchanged when it fails. -/
def disciplinedRun {α : Type} (r : Except PyErr α × World) (s : Schema) : Prop :=
  singleConnWrites r.2.trace = true ∧
  noNewConnWhileTx r.2.trace none = true ∧
  (r.1.isOk = true → ∃ t, r.2.trace = t ++ [Ev.commit 0, Ev.closeC 0]) ∧
  (r.1.isOk = false →
    (∃ t, r.2.trace = t ++ [Ev.rollback 0, Ev.closeC 0]) ∧ r.2.committed = s)

theorem DbM.bind_apply {α β : Type} (m : DbM α) (f : α → DbM β) (w : World) :
    (m >>= f) w = match m w with
      | (Except.ok a, w') => f a w'
      | (Except.error e, w') => (Except.error e, w') := rfl

theorem DbM.pure_apply {α : Type} (a : α) (w : World) :
    (pure a : DbM α) w = (Except.ok a, w) := rfl

theorem updConn_self (f : Nat → ConnSt) (i : Nat) (c : ConnSt) :
    updConn f i c i = c := by simp [updConn]

/-- Preservation facts for the caught taglet insert of `insert_note`:
with the write lock already owned it keeps the lock, never touches the
committed state, and leaves the pending `notes` table unchanged. -/
theorem catchIntegrity_execInsertTaglet_pres (cid : Nat) (v : PyVal) (w : World)
    (h : w.lockOwner = some cid) :
    (DbM.catchIntegrity (execInsertTaglet cid v) w).2.lockOwner = some cid ∧
    ((DbM.catchIntegrity (execInsertTaglet cid v) w).2.conns cid).pending.notes
        = (w.conns cid).pending.notes ∧
    (DbM.catchIntegrity (execInsertTaglet cid v) w).2.committed = w.committed := by
  cases v with
  | tup es => simp [DbM.catchIntegrity, execInsertTaglet, bindTagletParam, h]
  | str name =>
      simp only [DbM.catchIntegrity, execInsertTaglet, bindTagletParam, acquireWrite, h,
        readPending]
      by_cases hdup : name ∈ tagletNames (w.conns cid).pending
      · simp [hdup, h]
      · simp [hdup, setPending, updConn_self, readPending, h]

/-- The taglet-id lookup never changes the state. -/
theorem selectTagletIdByName_state (cid : Nat) (v : PyVal) (w : World) :
    (selectTagletIdByName cid v w).2 = w := by
  cases v <;> simp [selectTagletIdByName, bindTagletParam]

/-- Preservation facts for the association insert. -/
theorem execInsertNoteTag_pres (cid nid tid : Nat) (w : World)
    (h : w.lockOwner = some cid) :
    (execInsertNoteTag cid nid tid w).2.lockOwner = some cid ∧
    ((execInsertNoteTag cid nid tid w).2.conns cid).pending.notes
        = (w.conns cid).pending.notes ∧
    (execInsertNoteTag cid nid tid w).2.committed = w.committed := by
  simp [execInsertNoteTag, acquireWrite, h, setPending, updConn_self, readPending]

/-- The taglet loop of `insert_note` keeps the write lock, never commits
anything, and leaves the pending `notes` table as it found it. -/
theorem insertTagletsLoop_pres (nid cid : Nat) (l : List PyVal) :
    ∀ (w : World), w.lockOwner = some cid →
      (insertTagletsLoop nid cid l w).2.lockOwner = some cid ∧
      ((insertTagletsLoop nid cid l w).2.conns cid).pending.notes
          = (w.conns cid).pending.notes ∧
      (insertTagletsLoop nid cid l w).2.committed = w.committed := by
  induction l with
  | nil => intro w h; exact ⟨h, rfl, rfl⟩
  | cons v rest ih =>
      intro w h
      rw [insertTagletsLoop]
      simp only [DbM.bind_apply, DbM.pure_apply]
      rcases hc : DbM.catchIntegrity (execInsertTaglet cid v) w with ⟨rc, wc⟩
      obtain ⟨hc1, hc2, hc3⟩ := catchIntegrity_execInsertTaglet_pres cid v w h
      rw [hc] at hc1 hc2 hc3
      dsimp only at hc1 hc2 hc3
      cases rc with
      | error e => exact ⟨hc1, hc2, hc3⟩
      | ok u =>
          dsimp only
          rcases hs : selectTagletIdByName cid v wc with ⟨rs, ws⟩
          have hsw : ws = wc := by
            have h2 := selectTagletIdByName_state cid v wc
            rw [hs] at h2; exact h2
          subst hsw
          cases rs with
          | error e => exact ⟨hc1, hc2, hc3⟩
          | ok opt =>
              dsimp only
              cases opt with
              | none =>
                  dsimp only
                  obtain ⟨h1, h2, h3⟩ := ih ws hc1
                  exact ⟨h1, h2.trans hc2, h3.trans hc3⟩
              | some tid =>
                  dsimp only
                  rw [DbM.bind_apply]
                  rcases hn : execInsertNoteTag cid nid tid ws with ⟨rn, wn⟩
                  obtain ⟨hn1, hn2, hn3⟩ := execInsertNoteTag_pres cid nid tid ws hc1
                  rw [hn] at hn1 hn2 hn3
                  dsimp only at hn1 hn2 hn3
                  cases rn with
                  | error e => exact ⟨hn1, hn2.trans hc2, hn3.trans hc3⟩
                  | ok u2 =>
                      dsimp only
                      obtain ⟨h1, h2, h3⟩ := ih wn hn1
                      exact ⟨h1, (h2.trans hn2).trans hc2, (h3.trans hn3).trans hc3⟩

/-- Equation-consumer form of `insertTagletsLoop_pres`. -/
theorem insertTagletsLoop_pres_eq {nid cid : Nat} {l : List PyVal} {w : World}
    {rl : Except PyErr Unit} {wB : World}
    (heq : insertTagletsLoop nid cid l w = (rl, wB))
    (h : w.lockOwner = some cid) :
    wB.lockOwner = some cid ∧
    (wB.conns cid).pending.notes = (w.conns cid).pending.notes ∧
    wB.committed = w.committed := by
  have hp := insertTagletsLoop_pres nid cid l w h
  rw [heq] at hp
  exact hp

theorem insert_note_body_facts (n : Note) (cid : Nat) (w : World)
    (hopen : (w.conns cid).isOpen = true) (hlock : w.lockOwner = none) :
    (insert_note_body n cid w).1.isOk = true →
      (insert_note_body n cid w).2.lockOwner = some cid ∧
      n.front_side ∈ fronts ((insert_note_body n cid w).2.conns cid).pending ∧
      (insert_note_body n cid w).2.committed = w.committed := by
  rw [insert_note_body]
  simp only [DbM.bind_apply, DbM.pure_apply, openCursor, hopen, if_true,
    execInsertNotes, acquireWrite, hlock, readPending]
  split
  · rename_i a w' heq
    split at heq
    · simp at heq
    · simp only [Prod.mk.injEq, Except.ok.injEq] at heq
      obtain ⟨ha, hw⟩ := heq
      subst ha
      subst hw
      split
      · rename_i u w2 hloop
        intro _
        obtain ⟨p1, p2, p3⟩ := insertTagletsLoop_pres_eq hloop (by dsimp [setPending])
        refine ⟨p1, ?_, p3.trans (by dsimp [setPending])⟩
        have hrow : (⟨(w.conns cid).pending.nextNoteId, n.front_side, n.back_side⟩ : NoteRow)
            ∈ ((w.conns cid).pending.notes ++
               [⟨(w.conns cid).pending.nextNoteId, n.front_side, n.back_side⟩]) := by
          simp
        simp only [fronts, p2, setPending, updConn_self]
        exact List.mem_map_of_mem _ hrow
      · intro hko
        simp [Except.isOk, Except.toBool] at hko
  · intro hko
    simp [Except.isOk, Except.toBool] at hko

/-- What a successful `insert_note` guarantees: the committed store now
contains the note's front value, and the write lock has been released. -/
theorem insert_note_ok_facts (n : Note) (s : Schema) (id : Nat) (w1 : World)
    (h : insert_note n (mkWorld s) = (Except.ok id, w1)) :
    n.front_side ∈ fronts w1.committed ∧ w1.lockOwner = none := by
  rw [insert_note] at h
  simp only [withDCM] at h
  dsimp only [openConnW, mkWorld] at h
  split at h
  · rename_i a w2 hbody
    have hbf := insert_note_body_facts n 0
      ⟨s, updConn (fun _ => closedConn) 0 ⟨s, true⟩, none, 0 + 1, [] ++ [Ev.openC 0]⟩
      (by simp [updConn_self]) rfl
    rw [hbody] at hbf
    obtain ⟨q1, q2, q3⟩ := hbf rfl
    dsimp only at q1 q2 q3
    simp only [Prod.mk.injEq] at h
    obtain ⟨-, hw⟩ := h
    subst hw
    exact ⟨by simp [closeConnW, commitConnW, q1, q2],
           by simp [closeConnW, commitConnW, q1]⟩
  · rename_i e w2 hbody
    simp at h

/-- C4. After a successful insert, a second insert whose note carries the
same front text fails with `DuplicateFrontError` (the UNIQUE violation on
`notes.front_side` raised before any taglet write), its transaction is
rolled back, and the committed store is exactly what the first insert
left: no note, label, or association row from the failed call survives. -/
theorem insert_duplicate_front_rejected (s : Schema) (n m : Note) (id : Nat) (w1 : World)
    (hfront : m.front_side = n.front_side)
    (h : insert_note n (mkWorld s) = (Except.ok id, w1)) :
    (insert_note m w1).1 = Except.error DuplicateFrontError ∧
    (insert_note m w1).2.committed = w1.committed := by
  obtain ⟨hmem, hlock⟩ := insert_note_ok_facts n s id w1 h
  rw [insert_note]
  simp only [withDCM]
  dsimp only [openConnW]
  have hbody : insert_note_body m w1.nextConn
      { w1 with conns := updConn w1.conns w1.nextConn ⟨w1.committed, true⟩,
                nextConn := w1.nextConn + 1,
                trace := w1.trace ++ [Ev.openC w1.nextConn] } =
      (Except.error DuplicateFrontError,
       { w1 with conns := updConn w1.conns w1.nextConn ⟨w1.committed, true⟩,
                 lockOwner := some w1.nextConn,
                 nextConn := w1.nextConn + 1,
                 trace := w1.trace ++ [Ev.openC w1.nextConn] }) := by
    rw [insert_note_body]
    simp only [DbM.bind_apply, DbM.pure_apply, openCursor, updConn_self, execInsertNotes,
      acquireWrite, readPending, hlock]
    have hc : m.front_side ∈ fronts w1.committed := by rw [hfront]; exact hmem
    simp [hc, updConn_self]
  rw [hbody]
  simp [rollbackConnW, closeConnW]

/-- Witness for `insert_duplicate_front_rejected`: inserting `("f", "b",
{t})` into the empty store and then inserting it again. -/
theorem insert_duplicate_front_rejected_witness :
    (insert_note noteFT ((insert_note noteFT (mkWorld emptySchema)).2)).1
        = Except.error DuplicateFrontError ∧
    (insert_note noteFT ((insert_note noteFT (mkWorld emptySchema)).2)).2.committed
        = ((insert_note noteFT (mkWorld emptySchema)).2).committed :=
  insert_duplicate_front_rejected emptySchema noteFT noteFT 1
    ((insert_note noteFT (mkWorld emptySchema)).2) rfl (by rfl)

/-- C6 (amended). `FetchByFront` returns absent without error only for
the empty front string (checked before any query, state untouched); for
a non-empty front matching no stored note it raises `TypeError` from
unpacking the `None` fetch result, rolling back the read transaction with
the committed state unchanged. -/
theorem get_note_by_fields_absent_contract :
    (∀ (conn? : Option Nat) (w : World),
        get_note_by_fields "" conn? w = (Except.ok none, w)) ∧
    (∀ (s : Schema) (front : String), front ≠ "" →
        (∀ r ∈ s.notes, r.front ≠ front) →
        (get_note_by_fields front none (mkWorld s)).1 =
            Except.error (PyErr.typeError "cannot unpack non-iterable NoneType object") ∧
        (get_note_by_fields front none (mkWorld s)).2.committed = s) := by
  constructor
  · intro conn? w
    rfl
  · intro s front hne hnone
    rw [get_note_by_fields]
    simp only [if_neg hne]
    simp only [withDCM]
    dsimp only [openConnW, mkWorld]
    have hfind : s.notes.find? (fun r => r.front == front) = none := by
      rw [List.find?_eq_none]
      intro x hx
      simpa using hnone x hx
    rw [get_note_by_fields_body]
    simp only [DbM.bind_apply, DbM.pure_apply, openCursor, updConn_self, selectNoteByFront,
      readPending, hfind, unpackRow3, DbM.throwErr]
    simp [hfind, rollbackConnW, closeConnW, updConn_self, DbM.throwErr]

/-- The `ValueError` message of `zip(*result)` on an empty result. -/
def zipEmptyErr : PyErr :=
  PyErr.valueError "not enough values to unpack (expected 2, got 0)"

/-- Calling `add_tag_to_note` without a connection on a note that has no
association rows in the committed store: the inner `zip(*result)` raises
`ValueError` and the scoped transaction rolls back. -/
theorem add_tag_to_note_zero_assoc_err (noteId : Nat) (t : Tag) (w : World)
    (hassoc : ∀ nt ∈ w.committed.noteTags, nt.noteId ≠ noteId) :
    (add_tag_to_note noteId t none w).1 = Except.error zipEmptyErr ∧
    (add_tag_to_note noteId t none w).2.committed = w.committed := by
  have hfil : w.committed.noteTags.filter (fun nt => nt.noteId == noteId) = [] := by
    rw [List.filter_eq_nil_iff]
    intro nt hnt
    simpa using hassoc nt hnt
  rw [add_tag_to_note]
  simp only [DbM.bind_apply, DbM.pure_apply, withDCM, openConnW, add_tag_to_note_body,
    openCursor, updConn_self, if_true, selectTagletPairsOfNote, readPending,
    joinTagletPairsByNote, hfil, List.filterMap_nil]
  simp only [zipUnpack2, DbM.throwErr]
  simp [rollbackConnW, closeConnW, updConn_self, zipEmptyErr]


/-- Reading with `get_note_by_id` on an open connection is a pure read: it always
succeeds and returns the state unchanged. -/
theorem get_note_by_id_ok (noteId cid : Nat) (w : World)
    (hopen : (w.conns cid).isOpen = true) :
    ∃ opt, get_note_by_id noteId (some cid) w = (Except.ok opt, w) := by
  rw [get_note_by_id]
  by_cases hid : noteId = 0
  · exact ⟨none, by simp [hid, DbM.pure_apply]⟩
  · simp only [if_neg hid]
    rw [get_note_by_id_body]
    simp only [DbM.bind_apply, DbM.pure_apply, openCursor, hopen, if_true, selectNoteById,
      readPending]
    rcases hfind : Option.map (fun r => (r.front, r.back))
        (List.find? (fun r => r.id == noteId) (w.conns cid).pending.notes) with _ | fb
    · rw [hfind]
      exact ⟨none, rfl⟩
    · rw [hfind]
      simp only [DbM.bind_apply, DbM.pure_apply, selectTagletNamesOfNote, readPending]
      by_cases hemp :
          (List.map PyVal.str (joinTagletNamesByNote (w.conns cid).pending noteId)).isEmpty
            = true
      · simp only [if_pos hemp]; exact ⟨_, rfl⟩
      · simp only [if_neg hemp]; exact ⟨_, rfl⟩

/-- Equation-consumer form of `add_tag_to_note_zero_assoc_err`. -/
theorem add_tag_zero_assoc_eq {noteId : Nat} {t : Tag} {w : World}
    {r : Except PyErr Unit} {wA : World}
    (heq : add_tag_to_note noteId t none w = (r, wA))
    (hassoc : ∀ nt ∈ w.committed.noteTags, nt.noteId ≠ noteId) :
    r = Except.error zipEmptyErr ∧ wA.committed = w.committed := by
  have h2 := add_tag_to_note_zero_assoc_err noteId t w hassoc
  rw [heq] at h2
  exact h2

/-- The body of `update_note`, run for a note with no associations,
always raises and leaves the committed state unchanged: either the
UNIQUE check of the front/back update fails, or the original is absent
(`AttributeError` on `None`), or the nested `add_tag_to_note` raises
`ValueError` unpacking the empty join. -/
theorem update_note_body_err (noteId : Nat) (repl : Note) (cid : Nat) (w : World)
    (hopen : (w.conns cid).isOpen = true) (hlock : w.lockOwner = none)
    (hassoc : ∀ nt ∈ w.committed.noteTags, nt.noteId ≠ noteId) :
    (update_note_body noteId repl cid w).1.isOk = false ∧
    (update_note_body noteId repl cid w).2.committed = w.committed := by
  obtain ⟨opt, hget⟩ := get_note_by_id_ok noteId cid w hopen
  rw [update_note_body]
  simp only [DbM.bind_apply, DbM.pure_apply, hget, openCursor, hopen, if_true,
    execUpdateNotes, acquireWrite, hlock, DbM.throwErr]
  split
  · rename_i a2 w2 hexec
    split at hexec
    · simp at hexec
    · simp only [Prod.mk.injEq] at hexec
      obtain ⟨-, hw2⟩ := hexec
      subst hw2
      cases opt with
      | none => exact ⟨rfl, rfl⟩
      | some o =>
          simp only [DbM.bind_apply, DbM.pure_apply]
          split
          · rename_i a wA hA
            obtain ⟨hr, -⟩ := add_tag_zero_assoc_eq hA hassoc
            exact absurd hr (by simp)
          · rename_i e wA hA
            obtain ⟨hr, hcom⟩ := add_tag_zero_assoc_eq hA hassoc
            exact ⟨rfl, hcom⟩
  · rename_i e2 w2 hexec
    split at hexec
    · simp only [Prod.mk.injEq] at hexec
      obtain ⟨-, hw2⟩ := hexec
      subst hw2
      exact ⟨rfl, rfl⟩
    · simp at hexec

/-- C9. For a stored note with zero label associations: `AddLabels`
(`add_tag_to_note` without a connection) raises `ValueError` — the
`zip(*result)` unpacking of the empty join fails — instead of adding the
labels, leaving the committed store unchanged; consequently `update_note`
on such a note fails whenever its replacement introduces any label (in
fact it always fails), also leaving the committed store unchanged. -/
theorem add_labels_zero_assoc_behavior :
    (∀ (s : Schema) (noteId : Nat) (t : Tag),
        (∀ nt ∈ s.noteTags, nt.noteId ≠ noteId) →
        (add_tag_to_note noteId t none (mkWorld s)).1 = Except.error zipEmptyErr ∧
        (add_tag_to_note noteId t none (mkWorld s)).2.committed = s) ∧
    (∀ (s : Schema) (noteId : Nat) (repl : Note),
        (∀ nt ∈ s.noteTags, nt.noteId ≠ noteId) →
        repl.tag.taglets ≠ [] →
        (update_note noteId repl (mkWorld s)).1.isOk = false ∧
        (update_note noteId repl (mkWorld s)).2.committed = s) := by
  constructor
  · intro s noteId t h
    exact add_tag_to_note_zero_assoc_err noteId t (mkWorld s) h
  · intro s noteId repl h hintro
    rw [update_note]
    simp only [withDCM]
    dsimp only [openConnW, mkWorld]
    split
    · rename_i a w2 hbody
      have hb := update_note_body_err noteId repl 0
        ⟨s, updConn (fun _ => closedConn) 0 ⟨s, true⟩, none, 0 + 1, [] ++ [Ev.openC 0]⟩
        (by simp [updConn_self]) rfl h
      rw [hbody] at hb
      obtain ⟨h1, -⟩ := hb
      dsimp only at h1
      exact absurd h1 (by simp [Except.isOk, Except.toBool])
    · rename_i e w2 hbody
      have hb := update_note_body_err noteId repl 0
        ⟨s, updConn (fun _ => closedConn) 0 ⟨s, true⟩, none, 0 + 1, [] ++ [Ev.openC 0]⟩
        (by simp [updConn_self]) rfl h
      rw [hbody] at hb
      obtain ⟨-, h2⟩ := hb
      dsimp only at h2
      refine ⟨rfl, ?_⟩
      simp [closeConnW, rollbackConnW, h2]

/-- Witness for `add_labels_zero_assoc_behavior` at a store with one
note and no associations. -/
theorem add_labels_zero_assoc_behavior_witness :
    ((add_tag_to_note 1 (Tag.ofTaglets [PyVal.str "Z"]) none (mkWorld storeNoAssoc)).1
        = Except.error zipEmptyErr ∧
     (add_tag_to_note 1 (Tag.ofTaglets [PyVal.str "Z"]) none (mkWorld storeNoAssoc)).2.committed
        = storeNoAssoc) ∧
    ((update_note 1 ⟨"g", "h", Tag.ofTaglets [PyVal.str "Z"], 0⟩ (mkWorld storeNoAssoc)).1.isOk
        = false ∧
     (update_note 1 ⟨"g", "h", Tag.ofTaglets [PyVal.str "Z"], 0⟩
         (mkWorld storeNoAssoc)).2.committed = storeNoAssoc) :=
  ⟨add_labels_zero_assoc_behavior.1 storeNoAssoc 1 (Tag.ofTaglets [PyVal.str "Z"])
      (by simp [storeNoAssoc]),
   add_labels_zero_assoc_behavior.2 storeNoAssoc 1 ⟨"g", "h", Tag.ofTaglets [PyVal.str "Z"], 0⟩
      (by simp [storeNoAssoc]) (by decide)⟩

/-- Witness for `get_note_by_fields_absent_contract`: the empty front on
the empty store, and the unmatched front `"x"` on the empty store. -/
theorem get_note_by_fields_absent_contract_witness :
    get_note_by_fields "" none (mkWorld emptySchema) = (Except.ok none, mkWorld emptySchema) ∧
    ((get_note_by_fields "x" none (mkWorld emptySchema)).1 =
        Except.error (PyErr.typeError "cannot unpack non-iterable NoneType object") ∧
     (get_note_by_fields "x" none (mkWorld emptySchema)).2.committed = emptySchema) :=
  ⟨get_note_by_fields_absent_contract.1 none (mkWorld emptySchema),
   get_note_by_fields_absent_contract.2 emptySchema "x" (by decide) (by simp [emptySchema])⟩

theorem tracePlusWrites_refl (cid : Nat) (w : World) : tracePlusWrites cid w w :=
  ⟨[], by simp, by simp, rfl⟩

theorem tracePlusWrites_trans {cid : Nat} {w1 w2 w3 : World}
    (h1 : tracePlusWrites cid w1 w2) (h2 : tracePlusWrites cid w2 w3) :
    tracePlusWrites cid w1 w3 := by
  obtain ⟨l1, ht1, hl1, hc1⟩ := h1
  obtain ⟨l2, ht2, hl2, hc2⟩ := h2
  refine ⟨l1 ++ l2, ?_, ?_, hc2.trans hc1⟩
  · rw [ht2, ht1, List.append_assoc]
  · intro e he
    rcases List.mem_append.mp he with h | h
    · exact hl1 e h
    · exact hl2 e h

theorem tracePlusWrites_setPending (cid : Nat) (s' : Schema) (w : World) :
    tracePlusWrites cid w (setPending cid s' w) :=
  ⟨[Ev.write cid], by simp [setPending], by simp, by simp [setPending]⟩

theorem tracePlusWrites_lockOnly (cid : Nat) (x : Option Nat) (w : World) :
    tracePlusWrites cid w { w with lockOwner := x } :=
  ⟨[], by simp, by simp, rfl⟩


theorem acquireWrite_tw {cid : Nat} {w w1 : World}
    (h : acquireWrite cid w = Except.ok w1) : tracePlusWrites cid w w1 := by
  unfold acquireWrite at h
  cases hl : w.lockOwner with
  | none =>
      rw [hl] at h
      cases h
      exact tracePlusWrites_lockOnly cid (some cid) w
  | some c =>
      rw [hl] at h
      dsimp only at h
      by_cases hc : c = cid
      · rw [if_pos hc] at h
        cases h
        exact tracePlusWrites_refl cid w
      · rw [if_neg hc] at h
        cases h

theorem execInsertNotes_tw (cid : Nat) (f b : String) (w : World) :
    tracePlusWrites cid w (execInsertNotes cid f b w).2 := by
  simp only [execInsertNotes]
  rcases hacq : acquireWrite cid w with e | w1
  · exact tracePlusWrites_refl cid w
  · have h1 := acquireWrite_tw hacq
    dsimp only
    split
    · exact h1
    · exact tracePlusWrites_trans h1 (tracePlusWrites_setPending cid _ _)

theorem execInsertTaglet_tw (cid : Nat) (v : PyVal) (w : World) :
    tracePlusWrites cid w (execInsertTaglet cid v w).2 := by
  cases v with
  | tup es => exact tracePlusWrites_refl cid w
  | str name =>
      simp only [execInsertTaglet, bindTagletParam]
      rcases hacq : acquireWrite cid w with e | w1
      · exact tracePlusWrites_refl cid w
      · have h1 := acquireWrite_tw hacq
        dsimp only
        split
        · exact h1
        · exact tracePlusWrites_trans h1 (tracePlusWrites_setPending cid _ _)

theorem execInsertTagletOrIgnore_tw (cid : Nat) (v : PyVal) (w : World) :
    tracePlusWrites cid w (execInsertTagletOrIgnore cid v w).2 := by
  cases v with
  | tup es => exact tracePlusWrites_refl cid w
  | str name =>
      simp only [execInsertTagletOrIgnore, bindTagletParam]
      rcases hacq : acquireWrite cid w with e | w1
      · exact tracePlusWrites_refl cid w
      · have h1 := acquireWrite_tw hacq
        dsimp only
        split
        · exact h1
        · exact tracePlusWrites_trans h1 (tracePlusWrites_setPending cid _ _)

theorem execInsertNoteTag_tw (cid nid tid : Nat) (w : World) :
    tracePlusWrites cid w (execInsertNoteTag cid nid tid w).2 := by
  simp only [execInsertNoteTag]
  rcases hacq : acquireWrite cid w with e | w1
  · exact tracePlusWrites_refl cid w
  · have h1 := acquireWrite_tw hacq
    dsimp only
    exact tracePlusWrites_trans h1 (tracePlusWrites_setPending cid _ _)

theorem execDeleteNoteTag_tw (cid noteId : Nat) (v : PyVal) (w : World) :
    tracePlusWrites cid w (execDeleteNoteTag cid noteId v w).2 := by
  cases v with
  | tup es => exact tracePlusWrites_refl cid w
  | str name =>
      simp only [execDeleteNoteTag, bindTagletParam]
      rcases hacq : acquireWrite cid w with e | w1
      · exact tracePlusWrites_refl cid w
      · have h1 := acquireWrite_tw hacq
        dsimp only
        exact tracePlusWrites_trans h1 (tracePlusWrites_setPending cid _ _)

theorem execDeleteOrphanTaglets_tw (cid : Nat) (w : World) :
    tracePlusWrites cid w (execDeleteOrphanTaglets cid w).2 := by
  simp only [execDeleteOrphanTaglets]
  rcases hacq : acquireWrite cid w with e | w1
  · exact tracePlusWrites_refl cid w
  · have h1 := acquireWrite_tw hacq
    dsimp only
    exact tracePlusWrites_trans h1 (tracePlusWrites_setPending cid _ _)

theorem DbM_catchIntegrity_tw {cid : Nat} {w : World} (m : DbM Unit)
    (h : tracePlusWrites cid w (m w).2) :
    tracePlusWrites cid w (DbM.catchIntegrity m w).2 := by
  simp only [DbM.catchIntegrity]
  rcases hm : m w with ⟨r, w2⟩
  rw [hm] at h
  cases r with
  | ok a => exact h
  | error e => cases e <;> exact h

theorem zipUnpack2_state (l : List (Nat × String)) (w : World) :
    (zipUnpack2 l w).2 = w := by
  cases l <;> rfl

theorem tracePlusWrites_of_eq {cid : Nat} {w w2 : World} (h : w2 = w) :
    tracePlusWrites cid w w2 := by
  rw [h]
  exact tracePlusWrites_refl cid w

theorem openCursor_state (cid : Nat) (w : World) : (openCursor cid w).2 = w := by
  unfold openCursor
  split <;> rfl

theorem selectNoteById_state (cid noteId : Nat) (w : World) :
    (selectNoteById cid noteId w).2 = w := rfl

theorem selectNoteByFront_state (cid : Nat) (front : String) (w : World) :
    (selectNoteByFront cid front w).2 = w := rfl

theorem selectTagletNamesOfNote_state (cid noteId : Nat) (w : World) :
    (selectTagletNamesOfNote cid noteId w).2 = w := rfl

theorem selectOrphanTaglets_state (cid : Nat) (w : World) :
    (selectOrphanTaglets cid w).2 = w := rfl

theorem unpackRow3_state (o : Option (Nat × String × String)) (w : World) :
    (unpackRow3 o w).2 = w := by
  cases o <;> rfl

theorem insertTagletsLoop_tw (nid cid : Nat) (l : List PyVal) :
    ∀ (w : World), tracePlusWrites cid w (insertTagletsLoop nid cid l w).2 := by
  induction l with
  | nil => intro w; exact tracePlusWrites_refl cid w
  | cons v rest ih =>
      intro w
      rw [insertTagletsLoop]
      simp only [DbM.bind_apply, DbM.pure_apply]
      rcases hc : DbM.catchIntegrity (execInsertTaglet cid v) w with ⟨rc, wc⟩
      have htc : tracePlusWrites cid w wc := by
        have h := DbM_catchIntegrity_tw (execInsertTaglet cid v) (execInsertTaglet_tw cid v w)
        rw [hc] at h
        exact h
      cases rc with
      | error e => exact htc
      | ok u =>
          dsimp only
          rcases hs : selectTagletIdByName cid v wc with ⟨rs, ws⟩
          have hsw : ws = wc := by
            have h2 := selectTagletIdByName_state cid v wc
            rw [hs] at h2
            exact h2
          subst hsw
          cases rs with
          | error e => exact htc
          | ok opt =>
              dsimp only
              cases opt with
              | none =>
                  dsimp only
                  exact tracePlusWrites_trans htc (ih ws)
              | some tid =>
                  dsimp only
                  rw [DbM.bind_apply]
                  rcases hn : execInsertNoteTag cid nid tid ws with ⟨rn, wn⟩
                  have htn : tracePlusWrites cid ws wn := by
                    have h := execInsertNoteTag_tw cid nid tid ws
                    rw [hn] at h
                    exact h
                  cases rn with
                  | error e => exact tracePlusWrites_trans htc htn
                  | ok u2 =>
                      dsimp only
                      exact tracePlusWrites_trans htc (tracePlusWrites_trans htn (ih wn))

theorem insert_note_body_tw (n : Note) (cid : Nat) (w : World) :
    tracePlusWrites cid w (insert_note_body n cid w).2 := by
  rw [insert_note_body]
  simp only [DbM.bind_apply, DbM.pure_apply]
  rcases ho : openCursor cid w with ⟨ro, wo⟩
  have hwo : w = wo := by
    have h := openCursor_state cid w
    rw [ho] at h
    exact h.symm
  subst hwo
  cases ro with
  | error e => exact tracePlusWrites_refl cid w
  | ok u =>
      dsimp only
      rcases hi : execInsertNotes cid n.front_side n.back_side w with ⟨ri, wi⟩
      have hti : tracePlusWrites cid w wi := by
        have h := execInsertNotes_tw cid n.front_side n.back_side w
        rw [hi] at h
        exact h
      cases ri with
      | error e => exact hti
      | ok nid =>
          dsimp only
          rcases hl2 : insertTagletsLoop nid cid n.tag.taglets wi with ⟨rl, wl⟩
          have htl : tracePlusWrites cid wi wl := by
            have h := insertTagletsLoop_tw nid cid n.tag.taglets wi
            rw [hl2] at h
            exact h
          cases rl with
          | error e => exact tracePlusWrites_trans hti htl
          | ok u2 =>
              dsimp only
              exact tracePlusWrites_trans hti htl

theorem removeTagLoop_tw (noteId cid : Nat) (l : List PyVal) :
    ∀ (w : World), tracePlusWrites cid w (removeTagLoop noteId cid l w).2 := by
  induction l with
  | nil => intro w; exact tracePlusWrites_refl cid w
  | cons v rest ih =>
      intro w
      rw [removeTagLoop]
      simp only [DbM.bind_apply, DbM.pure_apply]
      rcases hd : execDeleteNoteTag cid noteId v w with ⟨rd, wd⟩
      have htd : tracePlusWrites cid w wd := by
        have h := execDeleteNoteTag_tw cid noteId v w
        rw [hd] at h
        exact h
      cases rd with
      | error e => exact htd
      | ok u =>
          dsimp only
          exact tracePlusWrites_trans htd (ih wd)

theorem remove_tag_from_note_body_tw (noteId : Nat) (del_tag : Tag) (cid : Nat) (w : World) :
    tracePlusWrites cid w (remove_tag_from_note_body noteId del_tag cid w).2 := by
  rw [remove_tag_from_note_body]
  simp only [DbM.bind_apply, DbM.pure_apply]
  rcases ho : openCursor cid w with ⟨ro, wo⟩
  have hwo : w = wo := by
    have h := openCursor_state cid w
    rw [ho] at h
    exact h.symm
  subst hwo
  cases ro with
  | error e => exact tracePlusWrites_refl cid w
  | ok u =>
      dsimp only
      split
      · exact tracePlusWrites_refl cid w
      · exact removeTagLoop_tw noteId cid del_tag.taglets w

theorem delete_unused_taglets_body_tw (cid : Nat) (w : World) :
    tracePlusWrites cid w (delete_unused_taglets_body cid w).2 := by
  rw [delete_unused_taglets_body]
  simp only [DbM.bind_apply, DbM.pure_apply]
  rcases ho : openCursor cid w with ⟨ro, wo⟩
  have hwo : w = wo := by
    have h := openCursor_state cid w
    rw [ho] at h
    exact h.symm
  subst hwo
  cases ro with
  | error e => exact tracePlusWrites_refl cid w
  | ok u =>
      dsimp only
      rcases hs : selectOrphanTaglets cid w with ⟨rs, ws⟩
      have hws : w = ws := by
        have h := selectOrphanTaglets_state cid w
        rw [hs] at h
        exact h.symm
      subst hws
      cases rs with
      | error e => exact tracePlusWrites_refl cid w
      | ok result =>
          dsimp only
          rcases hd : execDeleteOrphanTaglets cid w with ⟨rd, wd⟩
          have htd : tracePlusWrites cid w wd := by
            have h := execDeleteOrphanTaglets_tw cid w
            rw [hd] at h
            exact h
          cases rd with
          | error e => exact htd
          | ok u2 =>
              dsimp only
              rcases hz : zipUnpack2 result wd with ⟨rz, wz⟩
              have hwz : wz = wd := by
                have h := zipUnpack2_state result wd
                rw [hz] at h
                exact h
              subst hwz
              cases rz with
              | error e => exact htd
              | ok np =>
                  dsimp only
                  exact htd

theorem get_note_by_id_body_state (noteId cid : Nat) (w : World) :
    (get_note_by_id_body noteId cid w).2 = w := by
  rw [get_note_by_id_body]
  simp only [DbM.bind_apply, DbM.pure_apply]
  rcases ho : openCursor cid w with ⟨ro, wo⟩
  have hwo : w = wo := by
    have h := openCursor_state cid w
    rw [ho] at h
    exact h.symm
  subst hwo
  cases ro with
  | error e => rfl
  | ok u =>
      dsimp only
      rcases hs : selectNoteById cid noteId w with ⟨rs, ws⟩
      have hws : w = ws := by
        have h := selectNoteById_state cid noteId w
        rw [hs] at h
        exact h.symm
      subst hws
      cases rs with
      | error e => rfl
      | ok result =>
          dsimp only
          cases result with
          | none => rfl
          | some fb =>
              dsimp only
              rw [DbM.bind_apply]
              rcases hn : selectTagletNamesOfNote cid noteId w with ⟨rn, wn⟩
              have hwn : w = wn := by
                have h := selectTagletNamesOfNote_state cid noteId w
                rw [hn] at h
                exact h.symm
              subst hwn
              cases rn with
              | error e => rfl
              | ok names =>
                  dsimp only
                  split <;> rfl

theorem get_note_by_fields_body_state (front : String) (cid : Nat) (w : World) :
    (get_note_by_fields_body front cid w).2 = w := by
  rw [get_note_by_fields_body]
  simp only [DbM.bind_apply, DbM.pure_apply]
  rcases ho : openCursor cid w with ⟨ro, wo⟩
  have hwo : w = wo := by
    have h := openCursor_state cid w
    rw [ho] at h
    exact h.symm
  subst hwo
  cases ro with
  | error e => rfl
  | ok u =>
      dsimp only
      rcases hs : selectNoteByFront cid front w with ⟨rs, ws⟩
      have hws : w = ws := by
        have h := selectNoteByFront_state cid front w
        rw [hs] at h
        exact h.symm
      subst hws
      cases rs with
      | error e => rfl
      | ok row =>
          dsimp only
          rcases hu : unpackRow3 row w with ⟨ru, wu⟩
          have hwu : w = wu := by
            have h := unpackRow3_state row w
            rw [hu] at h
            exact h.symm
          subst hwu
          cases ru with
          | error e => rfl
          | ok r =>
              dsimp only
              rcases hn : selectTagletNamesOfNote cid r.1 w with ⟨rn, wn⟩
              have hwn : w = wn := by
                have h := selectTagletNamesOfNote_state cid r.1 w
                rw [hn] at h
                exact h.symm
              subst hwn
              cases rn with
              | error e => rfl
              | ok names => rfl

theorem writeConns_cons_openC (c : Nat) (tr : List Ev) :
    writeConns (Ev.openC c :: tr) = writeConns tr := rfl

theorem writeConns_append (t1 t2 : List Ev) :
    writeConns (t1 ++ t2) = writeConns t1 ++ writeConns t2 := by
  simp [writeConns]

theorem writeConns_all_writes {cid : Nat} {l : List Ev} (h : ∀ e ∈ l, e = Ev.write cid) :
    ∀ x ∈ writeConns l, x = cid := by
  intro x hx
  simp only [writeConns, List.mem_filterMap] at hx
  obtain ⟨e, he, hm⟩ := hx
  rw [h e he] at hm
  have hm2 : some cid = some x := hm
  exact (Option.some.inj hm2).symm

theorem singleConnWrites_of_all {cid : Nat} {tr : List Ev}
    (h : ∀ x ∈ writeConns tr, x = cid) : singleConnWrites tr = true := by
  unfold singleConnWrites
  cases hw : writeConns tr with
  | nil => rfl
  | cons c rest =>
      have hc : c = cid := h c (by rw [hw]; exact List.mem_cons_self _ _)
      dsimp only
      simp only [List.all_eq_true]
      intro x hx
      have hxc : x = cid := h x (by rw [hw]; exact List.mem_cons_of_mem _ hx)
      simp [hxc, hc]

theorem singleConnWrites_run {cid : Nat} {l : List Ev} (hl : ∀ e ∈ l, e = Ev.write cid)
    {t : List Ev} (ht : writeConns t = []) :
    singleConnWrites (Ev.openC cid :: (l ++ t)) = true := by
  apply singleConnWrites_of_all
  intro x hx
  rw [writeConns_cons_openC, writeConns_append, ht, List.append_nil] at hx
  exact writeConns_all_writes hl x hx

theorem noNewConnWhileTx_writes (cid : Nat) (t : List Ev)
    (hn : noNewConnWhileTx t none = true)
    (hs : noNewConnWhileTx t (some cid) = true) :
    ∀ (l : List Ev), (∀ e ∈ l, e = Ev.write cid) →
      noNewConnWhileTx (l ++ t) none = true ∧
      noNewConnWhileTx (l ++ t) (some cid) = true := by
  intro l
  induction l with
  | nil => intro _; exact ⟨hn, hs⟩
  | cons e rest ih =>
      intro h
      have he : e = Ev.write cid := h e (List.mem_cons_self _ _)
      have hrest : ∀ x ∈ rest, x = Ev.write cid := fun x hm => h x (List.mem_cons_of_mem _ hm)
      subst he
      have h2 := (ih hrest).2
      constructor
      · simpa only [List.cons_append, noNewConnWhileTx] using h2
      · simpa only [List.cons_append, noNewConnWhileTx] using h2

theorem noNewConnWhileTx_run {cid : Nat} {l : List Ev} (hl : ∀ e ∈ l, e = Ev.write cid)
    {t : List Ev} (hn : noNewConnWhileTx t none = true)
    (hs : noNewConnWhileTx t (some cid) = true) :
    noNewConnWhileTx (Ev.openC cid :: (l ++ t)) none = true := by
  have h := (noNewConnWhileTx_writes cid t hn hs l hl).1
  simpa only [noNewConnWhileTx] using h

theorem commitConnW_trace (cid : Nat) (w : World) :
    (commitConnW cid w).trace = w.trace ++ [Ev.commit cid] := by
  unfold commitConnW
  split <;> rfl

theorem withDCM_apply0 {α : Type} (body : Nat → DbM α) (s : Schema) :
    withDCM body (mkWorld s) = match body 0 (openConnW (mkWorld s)).2 with
      | (Except.ok a, w2) => (Except.ok a, closeConnW 0 (commitConnW 0 w2))
      | (Except.error e, w2) => (Except.error e, closeConnW 0 (rollbackConnW 0 w2)) := rfl

theorem withDCM_disciplined {α : Type} (body : Nat → DbM α) (s : Schema)
    (H : tracePlusWrites 0 (openConnW (mkWorld s)).2 (body 0 (openConnW (mkWorld s)).2).2) :
    disciplinedRun (withDCM body (mkWorld s)) s := by
  rcases hb : body 0 (openConnW (mkWorld s)).2 with ⟨r, w2⟩
  rw [hb] at H
  obtain ⟨l, htr, hl, hcom⟩ := H
  dsimp only at htr hl hcom
  have htr2 : w2.trace = Ev.openC 0 :: l := by rw [htr]; rfl
  have hcom2 : w2.committed = s := by rw [hcom]; rfl
  rw [withDCM_apply0, hb]
  cases r with
  | ok a =>
      dsimp only
      have hT : (closeConnW 0 (commitConnW 0 w2)).trace
          = Ev.openC 0 :: (l ++ [Ev.commit 0, Ev.closeC 0]) := by
        show (commitConnW 0 w2).trace ++ [Ev.closeC 0] = _
        rw [commitConnW_trace, htr2]
        simp
      refine ⟨?_, ?_, ?_, ?_⟩
      · rw [hT]
        exact singleConnWrites_run hl rfl
      · rw [hT]
        exact noNewConnWhileTx_run hl rfl rfl
      · intro _
        exact ⟨Ev.openC 0 :: l, by rw [hT]; simp⟩
      · intro hko
        simp [Except.isOk, Except.toBool] at hko
  | error e =>
      dsimp only
      have hT : (closeConnW 0 (rollbackConnW 0 w2)).trace
          = Ev.openC 0 :: (l ++ [Ev.rollback 0, Ev.closeC 0]) := by
        show (rollbackConnW 0 w2).trace ++ [Ev.closeC 0] = _
        rw [show (rollbackConnW 0 w2).trace = w2.trace ++ [Ev.rollback 0] from rfl, htr2]
        simp
      refine ⟨?_, ?_, ?_, ?_⟩
      · rw [hT]
        exact singleConnWrites_run hl rfl
      · rw [hT]
        exact noNewConnWhileTx_run hl rfl rfl
      · intro hko
        simp [Except.isOk, Except.toBool] at hko
      · intro _
        exact ⟨⟨Ev.openC 0 :: l, by rw [hT]; simp⟩, hcom2⟩

/-- C3 (amended). Every public operation that stays inside its single
DatabaseContextManager scope is transaction-disciplined on every store and
input: insert_note, get_note_by_id on a nonzero id, get_note_by_fields on a
non-empty front, remove_tag_from_note, and delete_unused_taglets perform all
their writes on the one scoped connection, never open a second connection
while a write transaction is open, end in commit then close on success, and
end in rollback then close with the committed store unchanged on failure.
Two operations break the discipline: update_note opens a second connection
while its own write transaction is still open (the call fails and rolls
back, leaving the store unchanged), and add_tag_to_note called without a
connection commits its writes and then fails on the closed connection, so
its failure leaves the committed store changed. -/
theorem txn_discipline_per_operation :
    (∀ (n : Note) (s : Schema), disciplinedRun (insert_note n (mkWorld s)) s) ∧
    (∀ (noteId : Nat) (s : Schema), noteId ≠ 0 →
        disciplinedRun (get_note_by_id noteId none (mkWorld s)) s) ∧
    (∀ (front : String) (s : Schema), front ≠ "" →
        disciplinedRun (get_note_by_fields front none (mkWorld s)) s) ∧
    (∀ (noteId : Nat) (del_tag : Tag) (s : Schema),
        disciplinedRun (remove_tag_from_note noteId del_tag (mkWorld s)) s) ∧
    (∀ (s : Schema), disciplinedRun (delete_unused_taglets (mkWorld s)) s) ∧
    (noNewConnWhileTx (update_note 1 replABD (mkWorld storeABC)).2.trace none = false ∧
     (update_note 1 replABD (mkWorld storeABC)).1.isOk = false ∧
     (update_note 1 replABD (mkWorld storeABC)).2.committed = storeABC) ∧
    ((add_tag_to_note 1 (Tag.ofTaglets [PyVal.str "Z"]) none (mkWorld storeABC)).1.isOk = false ∧
     (add_tag_to_note 1 (Tag.ofTaglets [PyVal.str "Z"]) none (mkWorld storeABC)).2.committed
        ≠ storeABC) := by
  refine ⟨?_, ?_, ?_, ?_, ?_, ?_, ?_⟩
  · intro n s
    exact withDCM_disciplined (insert_note_body n) s (insert_note_body_tw n 0 _)
  · intro noteId s h
    rw [get_note_by_id, if_neg h]
    exact withDCM_disciplined _ s
      (tracePlusWrites_of_eq (get_note_by_id_body_state noteId 0 _))
  · intro front s h
    rw [get_note_by_fields, if_neg h]
    exact withDCM_disciplined _ s
      (tracePlusWrites_of_eq (get_note_by_fields_body_state front 0 _))
  · intro noteId del_tag s
    exact withDCM_disciplined (remove_tag_from_note_body noteId del_tag) s
      (remove_tag_from_note_body_tw noteId del_tag 0 _)
  · intro s
    exact withDCM_disciplined delete_unused_taglets_body s (delete_unused_taglets_body_tw 0 _)
  · exact ⟨by decide, by decide, by decide⟩
  · exact ⟨by decide, by decide⟩

/-- Witness for the universally quantified discipline conjuncts of C3: each
disciplined operation applied at a concrete input, with the nonzero-id and
non-empty-front hypotheses discharged by computation. -/
theorem txn_discipline_per_operation_witness :
    disciplinedRun (insert_note noteFT (mkWorld emptySchema)) emptySchema ∧
    disciplinedRun (get_note_by_id 1 none (mkWorld emptySchema)) emptySchema ∧
    disciplinedRun (get_note_by_fields "x" none (mkWorld emptySchema)) emptySchema ∧
    disciplinedRun
      (remove_tag_from_note 1 (Tag.ofTaglets [PyVal.str "Z"]) (mkWorld emptySchema))
      emptySchema ∧
    disciplinedRun (delete_unused_taglets (mkWorld emptySchema)) emptySchema :=
  ⟨txn_discipline_per_operation.1 noteFT emptySchema,
   txn_discipline_per_operation.2.1 1 emptySchema (by decide),
   txn_discipline_per_operation.2.2.1 "x" emptySchema (by decide),
   txn_discipline_per_operation.2.2.2.1 1 (Tag.ofTaglets [PyVal.str "Z"]) emptySchema,
   txn_discipline_per_operation.2.2.2.2.1 emptySchema⟩
